import Mathlib

/-!
Verification development for the cometbft-baseapp ABCI application.

Shallow embedding of the application state machine from `comet/app.go` and
the hook functions from `app/run.go`:

* bytes are natural numbers (0–255 in practice), byte strings are `List Nat`;
* the durable key/value store (`cometbft-db` handle) is a map from string
  keys to optional byte values; the two-entry write batch built in `Commit`
  (`Set` + `Set` + `WriteSync`) is modelled as two sequential store updates
  applied atomically when `commit` returns;
* Go `int64` values (heights, byte sizes) are `Int`, with the Go narrowing
  conversions `byte(x)` and `uint64(x)` made explicit as `% 256` / `% 2^64`;
* the external SHA-256 digest (`crypto/sha256`, not part of this repository)
  is a parameter `hash : Bytes → Bytes`; the application feeds it the stream
  `bigEndian8(uint64(height)) ++ concatenation of the txs`, exactly as the
  successive `h.Write` calls in `FinalizeBlock` do;
* fallible Go code returning `(value, error)` becomes `Except String`;
  `cometbft-db` batch `Set` rejects a nil value with an error, which the
  code propagates; a nil Go byte slice is represented by the empty byte
  string, since the application only ever handles values that are either
  nil (a `Get` of a missing key) or non-empty (a 32-byte digest, a 1-byte
  height) — a non-nil empty slice never occurs. `WriteSync` failures
  (environment faults of the storage engine) are outside the model.

Request/response structures keep only the fields the code reads or writes;
fields the code leaves at their protobuf zero value or never touches are
noted at each definition.
-/

set_option maxRecDepth 10000

namespace CometBaseApp

/-- A byte string: Go `[]byte`, each element a byte value. -/
abbrev Bytes := List Nat

/-- The durable store: byte-string keys (written as Lean strings) to byte
values. `none` models a key absent from the database; `cometbft-db` `Get`
returns `nil` for such keys. -/
abbrev Db := String → Option Bytes

/-- A freshly created, empty database. -/
def emptyDb : Db := fun _ => none

/-- A single key/value write applied to the store (the effect of a batch
`Set` once the batch is flushed). -/
def dbSet (db : Db) (k : String) (v : Bytes) : Db :=
  fun q => if q = k then some v else db q

/-- Big-endian 8-byte encoding of a (64-bit) natural number:
`binary.BigEndian.PutUint64`. -/
def beBytes8 (n : Nat) : Bytes :=
  [n / 2 ^ 56 % 256, n / 2 ^ 48 % 256, n / 2 ^ 40 % 256, n / 2 ^ 32 % 256,
   n / 2 ^ 24 % 256, n / 2 ^ 16 % 256, n / 2 ^ 8 % 256, n % 256]

/-- `abci.CheckTxRequest`: the code only forwards the request, reading no
field; the transaction bytes are kept for completeness. -/
structure CheckTxRequest where
  tx : Bytes

/-- `abci.CheckTxResponse`: the code always returns the zero response, whose
`Code` is 0 (accept). Other zero-valued fields omitted. -/
structure CheckTxResponse where
  code : Nat
  deriving DecidableEq

/-- `abci.PrepareProposalRequest`: the code reads `Txs` and `MaxTxBytes`. -/
structure PrepareProposalRequest where
  maxTxBytes : Int
  txs : List Bytes

/-- `abci.PrepareProposalResponse`. -/
structure PrepareProposalResponse where
  txs : List Bytes

/-- `abci.ProcessProposalRequest`: the code reads only `Txs`; the request
carries no byte-budget field. -/
structure ProcessProposalRequest where
  txs : List Bytes

/-- Proposal verdict: `PROCESS_PROPOSAL_STATUS_ACCEPT` / `_REJECT`. -/
inductive ProposalStatus where
  | accept
  | reject
  deriving DecidableEq, Repr

/-- `abci.ProcessProposalResponse`. -/
structure ProcessProposalResponse where
  status : ProposalStatus
  deriving DecidableEq

/-- `abci.FinalizeBlockRequest`: the code reads `Height` and `Txs`; the
remaining fields (hash, time, commit info, ...) are never consulted. -/
structure FinalizeBlockRequest where
  height : Int
  txs : List Bytes

/-- `abci.ExecTxResult`, with exactly the fields the code fills (all set to
their zero values; `Events` omitted, always `nil`). -/
structure ExecTxResult where
  code : Nat
  data : Bytes
  log : String
  info : String
  gasWanted : Int
  gasUsed : Int
  deriving DecidableEq

/-- `abci.FinalizeBlockResponse`: the code returns empty `Events`,
empty `ValidatorUpdates` and empty `ConsensusParamUpdates` (constants,
omitted here) plus the two computed fields kept below. -/
structure FinalizeBlockResponse where
  appHash : Bytes
  txResults : List ExecTxResult

/-- `abci.CommitRequest`: no field is read. -/
structure CommitRequest where

/-- `abci.CommitResponse`: the code returns the zero response
(`RetainHeight` 0). -/
structure CommitResponse where
  retainHeight : Int
  deriving DecidableEq

/-- `abci.InfoRequest`: no field is read. -/
structure InfoRequest where

/-- `abci.InfoResponse`, with the fields the code sets. -/
structure InfoResponse where
  data : String
  version : String
  appVersion : Nat
  lastBlockHeight : Int
  lastBlockAppHash : Bytes

/-- `abci.QueryRequest`: the code reads `Path` and `Data` (for logging
only). -/
structure QueryRequest where
  path : String
  data : Bytes

/-- `abci.QueryResponse`: the code returns the zero response. -/
structure QueryResponse where
  code : Nat

/-- `app.ProcessTX` (app/run.go): placeholder hook, always succeeds with the
zero response. -/
def processTX (_ : CheckTxRequest) : Except String CheckTxResponse :=
  Except.ok { code := 0 }

/-- `app.CommitData` (app/run.go): placeholder hook, always succeeds with
the zero response. -/
def commitData (_ : CommitRequest) : Except String CommitResponse :=
  Except.ok { retainHeight := 0 }

/-- `app.QueryData` (app/run.go): placeholder hook, always succeeds with the
zero response. -/
def queryData (_ : QueryRequest) : Except String QueryResponse :=
  Except.ok { code := 0 }

/-- The application state (`CometApp` struct): store handle plus the
in-memory cached hash and height. -/
structure CometApp where
  db : Db
  lastHash : Bytes
  lastHeight : Int

/-- `GetLastBlockHashAndHeight` (comet/app.go): read the two reserved
entries; a missing entry reads as `nil`; the height is `0` unless the
stored byte string is non-empty, in which case it is the FIRST byte only
(`int64(heightBytes[0])`). -/
def getLastBlockHashAndHeight (db : Db) : Bytes × Int :=
  let lastHash := (db "lastAppHash").getD []
  let heightBytes := (db "lastHeight").getD []
  (lastHash,
    match heightBytes with
    | [] => 0
    | b :: _ => (b : Int))

/-- `NewCometApp`: load the cached (hash, height) pair from the store. -/
def newCometApp (db : Db) : CometApp :=
  { db := db
    lastHash := (getLastBlockHashAndHeight db).1
    lastHeight := (getLastBlockHashAndHeight db).2 }

/-- `CheckTx` handler: forwards to `app.ProcessTX`, propagating its error,
otherwise answers with the zero response (code 0). The application state is
not touched. -/
def checkTx (req : CheckTxRequest) : Except String CheckTxResponse :=
  match processTX req with
  | Except.error e => Except.error e
  | Except.ok _ => Except.ok { code := 0 }

/-- The transaction-selection loop of `PrepareProposal`: walk the candidates
in order with a running size accumulator `sz`, stopping (`break`) at the
first transaction that would push the total past `maxTxBytes`. -/
def prepareLoop (maxTxBytes : Int) : List Bytes → Int → List Bytes
  | [], _ => []
  | tx :: rest, sz =>
    if maxTxBytes < sz + (tx.length : Int) then []
    else tx :: prepareLoop maxTxBytes rest (sz + (tx.length : Int))

/-- `PrepareProposal` handler. -/
def prepareProposal (req : PrepareProposalRequest) : PrepareProposalResponse :=
  { txs := prepareLoop req.maxTxBytes req.txs 0 }

/-- Total byte size of a transaction list, as the accumulation loop in
`ProcessProposal` computes it. -/
def totalTxBytes (txs : List Bytes) : Int :=
  txs.foldl (fun s tx => s + (tx.length : Int)) 0

/-- `ProcessProposal` handler: sums the transaction sizes and compares the
sum against the LOCAL constant `maxTxsBytes := 1000000` (the request has no
budget field); rejects only when that fixed cap is exceeded. -/
def processProposal (req : ProcessProposalRequest) : ProcessProposalResponse :=
  if (0 : Int) < 1000000 ∧ (1000000 : Int) < totalTxBytes req.txs then
    { status := ProposalStatus.reject }
  else
    { status := ProposalStatus.accept }

/-- The AppHash computation inside `FinalizeBlock`: SHA-256 over the stream
`bigEndian8(uint64(height))` followed by the transactions in order, where
`uint64` narrowing of the `int64` height is `% 2^64`. -/
def stateRoot (hash : Bytes → Bytes) (height : Int) (txs : List Bytes) : Bytes :=
  hash (beBytes8 ((height % (2 ^ 64 : Int)).toNat) ++ txs.flatten)

/-- `FinalizeBlock` handler: overwrite the in-memory height with
`req.Height`, recompute the in-memory hash, and answer with one zero-valued
`ExecTxResult` per transaction (index `i` of the result array is built from
transaction `i`) plus the new AppHash. The durable store is untouched. -/
def finalizeBlock (hash : Bytes → Bytes) (s : CometApp)
    (req : FinalizeBlockRequest) : CometApp × FinalizeBlockResponse :=
  let newHash := stateRoot hash req.height req.txs
  ({ s with lastHeight := req.height, lastHash := newHash },
   { appHash := newHash
     txResults := req.txs.map (fun _ =>
       { code := 0, data := [], log := "", info := ""
         gasWanted := 0, gasUsed := 0 }) })

/-- `cometbft-db` batch `Set`: stage one write at the end of the batch,
rejecting a nil value with an explicit error, as every `cometbft-db`
backend does. A nil Go byte slice is represented here by the empty byte
string: the only values this application ever passes to `Set` are the
in-memory hash — nil on a fresh start, otherwise a 32-byte digest — and
the 1-byte height, so a non-nil empty slice never occurs. -/
def batchSet (batch : List (String × Bytes)) (k : String) (v : Bytes) :
    Except String (List (String × Bytes)) :=
  if v = [] then Except.error "value cannot be nil"
  else Except.ok (batch ++ [(k, v)])

/-- `cometbft-db` batch `WriteSync`: apply the staged writes to the store,
in order, atomically and synchronously. -/
def writeSync (db : Db) (batch : List (String × Bytes)) : Db :=
  batch.foldl (fun d p => dbSet d p.1 p.2) db

/-- `Commit` handler: call `app.CommitData` (propagating its error), then
stage two batch writes — `lastAppHash` ↦ the in-memory hash, then
`lastHeight` ↦ the SINGLE byte `byte(lastHeight)`, i.e. the height reduced
`% 256` — returning the error of either `Set` (which aborts the commit
before anything reaches the store), and finally flush the batch
synchronously. No protocol-precondition check occurs. -/
def commit (s : CometApp) : Except String (CometApp × CommitResponse) :=
  match commitData {} with
  | Except.error e => Except.error e
  | Except.ok _ =>
    match batchSet [] "lastAppHash" s.lastHash with
    | Except.error e => Except.error e
    | Except.ok b1 =>
      match batchSet b1 "lastHeight" [(s.lastHeight % 256).toNat] with
      | Except.error e => Except.error e
      | Except.ok b2 =>
        Except.ok ({ s with db := writeSync s.db b2 },
          { retainHeight := 0 })

/-- `Info` handler: reports the constants of the app plus the CURRENT
in-memory (height, hash) pair. -/
def info (s : CometApp) : InfoResponse :=
  { data := "mycometApp"
    version := "v0.1.0"
    appVersion := 1
    lastBlockHeight := s.lastHeight
    lastBlockAppHash := s.lastHash }

/-- `Query` handler: forwards to `app.QueryData`, propagating its error,
otherwise answers with the zero response. The state is not touched. -/
def query (_ : CometApp) (req : QueryRequest) : Except String QueryResponse :=
  match queryData req with
  | Except.error e => Except.error e
  | Except.ok _ => Except.ok { code := 0 }

/-- Did `Commit` succeed? -/
def commitSucceeds (s : CometApp) : Bool :=
  match commit s with
  | Except.ok _ => true
  | Except.error _ => false

/-- The application state after a `Commit` outcome (unchanged on error). -/
def okState (r : Except String (CometApp × CommitResponse)) (s : CometApp) :
    CometApp :=
  match r with
  | Except.ok p => p.1
  | Except.error _ => s

/-- One invocation of any of the application's handlers, as far as the
application state is concerned. `InitChain`, `ExtendVote`,
`VerifyVoteExtension` and the four snapshot handlers return constant empty
responses and are state-identities, as are `CheckTx`, `Info` and `Query`. -/
inductive Handler where
  | hInitChain
  | hCheckTx (r : CheckTxRequest)
  | hPrepareProposal (r : PrepareProposalRequest)
  | hProcessProposal (r : ProcessProposalRequest)
  | hFinalizeBlock (r : FinalizeBlockRequest)
  | hCommit
  | hExtendVote
  | hVerifyVoteExtension
  | hInfo
  | hQuery (r : QueryRequest)
  | hListSnapshots
  | hOfferSnapshot
  | hLoadSnapshotChunk
  | hApplySnapshotChunk

/-- State transition of a single handler invocation. Only `FinalizeBlock`
(in-memory fields) and `Commit` (durable store) change the state; every
other handler leaves it untouched. -/
def step (hash : Bytes → Bytes) (s : CometApp) : Handler → CometApp
  | Handler.hFinalizeBlock r => (finalizeBlock hash s r).1
  | Handler.hCommit => okState (commit s) s
  | _ => s

/-- A sequence of handler invocations, driven in order. -/
def runHandlers (hash : Bytes → Bytes) (s : CometApp) (hs : List Handler) :
    CometApp :=
  hs.foldl (step hash) s

/-- A concrete stand-in for the SHA-256 parameter, used to instantiate
witnesses: like a real SHA-256 digest, its output is 32 bytes and in
particular never nil. -/
def digest32 : Bytes → Bytes :=
  fun _ => List.replicate 32 0

/-- The proposal-construction scenario from the specification: three
candidate transactions of 300 bytes each under a 500-byte budget. -/
def scenario300 : PrepareProposalRequest :=
  { maxTxBytes := 500,
    txs := [List.replicate 300 0, List.replicate 300 1, List.replicate 300 2] }

/-! ### Helper lemmas about the proposal-selection loop -/

/-- Folding the size accumulator from `a` is `a` plus folding it from 0. -/
theorem totalTxBytes_shift (a : Int) (l : List Bytes) :
    l.foldl (fun s tx => s + (tx.length : Int)) a = a + totalTxBytes l := by
  induction l generalizing a with
  | nil => simp [totalTxBytes]
  | cons tx rest ih =>
    simp only [totalTxBytes, List.foldl_cons] at *
    rw [ih, ih ((0 : Int) + (tx.length : Int))]
    ring

/-- The total size of a transaction list, one transaction at a time. -/
theorem totalTxBytes_cons (tx : Bytes) (l : List Bytes) :
    totalTxBytes (tx :: l) = (tx.length : Int) + totalTxBytes l := by
  have h := totalTxBytes_shift ((0 : Int) + (tx.length : Int)) l
  calc totalTxBytes (tx :: l)
      = ((0 : Int) + (tx.length : Int)) + totalTxBytes l := h
    _ = (tx.length : Int) + totalTxBytes l := by ring

/-- The selection loop of `PrepareProposal` returns an order-preserving
initial segment of its candidate list. -/
theorem prepareLoop_take (maxTxBytes : Int) :
    ∀ (txs : List Bytes) (sz : Int),
      prepareLoop maxTxBytes txs sz =
        List.take (prepareLoop maxTxBytes txs sz).length txs := by
  intro txs
  induction txs with
  | nil => intro sz; rfl
  | cons tx rest ih =>
    intro sz
    by_cases hov : maxTxBytes < sz + (tx.length : Int)
    · simp [prepareLoop, hov]
    · simp only [prepareLoop, if_neg hov, List.length_cons, List.take_succ_cons]
      exact congrArg (tx :: ·) (ih _)

/-- The selection loop of `PrepareProposal` keeps the running size within
the budget: starting from accumulator `sz ≤ maxTxBytes`, the selected
transactions add at most `maxTxBytes - sz` bytes. -/
theorem prepareLoop_size (maxTxBytes : Int) :
    ∀ (txs : List Bytes) (sz : Int), sz ≤ maxTxBytes →
      sz + totalTxBytes (prepareLoop maxTxBytes txs sz) ≤ maxTxBytes := by
  intro txs
  induction txs with
  | nil => intro sz h; simpa [prepareLoop, totalTxBytes] using h
  | cons tx rest ih =>
    intro sz h
    by_cases hov : maxTxBytes < sz + (tx.length : Int)
    · simpa [prepareLoop, hov, totalTxBytes] using h
    · have hle : sz + (tx.length : Int) ≤ maxTxBytes := not_lt.mp hov
      have hrec := ih (sz + (tx.length : Int)) hle
      simp only [prepareLoop, if_neg hov, totalTxBytes_cons]
      omega

/-- A single handler invocation never writes the durable store outside the
two reserved keys `lastHeight` and `lastAppHash`: the only handler that
writes at all is `Commit`, which either aborts on the nil-value check
(writing nothing) or flushes exactly the two reserved-key writes. -/
theorem step_db_frame (hash : Bytes → Bytes) (s : CometApp) (h : Handler)
    (k : String) (hk1 : k ≠ "lastHeight") (hk2 : k ≠ "lastAppHash") :
    (step hash s h).db k = s.db k := by
  cases h
  case hCommit =>
    by_cases hnil : s.lastHash = []
    · simp [step, okState, commit, commitData, batchSet, hnil]
    · simp [step, okState, commit, commitData, batchSet, writeSync, dbSet,
            hnil, hk1, hk2]
  all_goals rfl

/-! ### Claim theorems -/

/-- Claim C1, counterexample: the claim asserts that `ProcessProposal`
rejects a transaction list summing to 900 bytes when the byte budget is
500; on the code, a request carrying one 900-byte transaction (the request
has no budget field at all) is ACCEPTED, because the code compares the
total only against its hard-coded 1,000,000-byte cap. -/
theorem c1_counterexample :
    (processProposal { txs := [List.replicate 900 0] }).status
      = ProposalStatus.accept ∧
    ProposalStatus.accept ≠ ProposalStatus.reject :=
  ⟨by decide, by decide⟩

/-- Claim C1, amended: `ProcessProposal` re-derives the total serialized
size of the proposed list and rejects exactly when that total exceeds the
fixed local cap of 1,000,000 bytes; the request supplies no byte budget, so
the verdict is independent of any proposer-side budget. -/
theorem c1_amended_fixed_cap (req : ProcessProposalRequest) :
    (processProposal req).status = ProposalStatus.reject ↔
      (1000000 : Int) < totalTxBytes req.txs := by
  have h0 : (0 : Int) < 1000000 := by norm_num
  by_cases hc : (1000000 : Int) < totalTxBytes req.txs
  · simp [processProposal, hc, h0]
  · simp [processProposal, hc, h0]

/-- Claim C2, code-bug evaluation: `Commit` has no protocol-precondition
check, so invoking it WITHOUT a preceding block execution SILENTLY
SUCCEEDS whenever the in-memory hash is a (non-nil) digest. Concretely:
execute and commit height 1, then invoke `Commit` again with no
intervening `FinalizeBlock` — the second call returns success instead of
the protocol-violation error the claim requires. (On a completely fresh
application the call does fail, but only with the storage layer's
nil-value error, not a protocol check.) -/
theorem c2_second_commit_silently_succeeds (hash : Bytes → Bytes)
    (hd : stateRoot hash 1 [[7]] ≠ []) :
    commitSucceeds
      (runHandlers hash (newCometApp emptyDb)
        [Handler.hFinalizeBlock { height := 1, txs := [[7]] },
         Handler.hCommit]) = true := by
  simp [runHandlers, step, okState, commitSucceeds, commit, commitData,
        batchSet, writeSync, finalizeBlock, dbSet, hd]

/-- Witness for claim C2: with a concrete 32-byte digest function, the
second `Commit` (invoked without a preceding execution) reports success. -/
theorem c2_witness :
    stateRoot digest32 1 [[7]] ≠ [] ∧
    commitSucceeds
      (runHandlers digest32 (newCometApp emptyDb)
        [Handler.hFinalizeBlock { height := 1, txs := [[7]] },
         Handler.hCommit]) = true :=
  ⟨by decide, c2_second_commit_silently_succeeds digest32 (by decide)⟩

/-- Claim C3, code-bug evaluation: a successful `Commit` after executing
height 256 (the executed block's digest being non-nil, as SHA-256 digests
are, the nil-value check is inert) persists under `lastHeight` the SINGLE
byte `byte(256) = 0`, not the 8-byte big-endian encoding
`[0,0,0,0,0,0,1,0]` the claim requires. -/
theorem c3_height_truncated_to_one_byte (hash : Bytes → Bytes)
    (hd : stateRoot hash 256 [] ≠ []) :
    (okState
        (commit (finalizeBlock hash (newCometApp emptyDb)
            { height := 256, txs := [] }).1)
        (finalizeBlock hash (newCometApp emptyDb)
            { height := 256, txs := [] }).1).db "lastHeight" = some [0] ∧
    beBytes8 256 = [0, 0, 0, 0, 0, 0, 1, 0] ∧
    ([0] : Bytes) ≠ beBytes8 256 := by
  refine ⟨?_, by decide, by decide⟩
  simp [okState, commit, commitData, batchSet, writeSync, dbSet,
        finalizeBlock, hd]

/-- Witness for claim C3: the single-byte truncation at height 256,
evaluated with a concrete 32-byte digest function. -/
theorem c3_witness :
    stateRoot digest32 256 [] ≠ [] ∧
    ((okState
        (commit (finalizeBlock digest32 (newCometApp emptyDb)
            { height := 256, txs := [] }).1)
        (finalizeBlock digest32 (newCometApp emptyDb)
            { height := 256, txs := [] }).1).db "lastHeight" = some [0] ∧
      beBytes8 256 = [0, 0, 0, 0, 0, 0, 1, 0] ∧
      ([0] : Bytes) ≠ beBytes8 256) :=
  ⟨by decide, c3_height_truncated_to_one_byte digest32 (by decide)⟩

/-- Claim C4, code-bug evaluation: after executing and committing height
256 on a fresh chain (again with a non-nil digest, so both batch writes go
through), a simulated restart (re-reading the reserved entries through
`NewCometApp` / `GetLastBlockHashAndHeight`) reports height 0, not 256:
the single-byte truncation in `Commit` loses the height. -/
theorem c4_handshake_wrong_after_height_256 (hash : Bytes → Bytes)
    (hd : stateRoot hash 256 [] ≠ []) :
    (newCometApp
        (okState
          (commit (finalizeBlock hash (newCometApp emptyDb)
              { height := 256, txs := [] }).1)
          (finalizeBlock hash (newCometApp emptyDb)
              { height := 256, txs := [] }).1).db).lastHeight = 0 ∧
    (0 : Int) ≠ 256 := by
  refine ⟨?_, by decide⟩
  simp [newCometApp, getLastBlockHashAndHeight, okState, commit, commitData,
        batchSet, writeSync, dbSet, finalizeBlock, hd]

/-- Witness for claim C4: the broken handshake after height 256, evaluated
with a concrete 32-byte digest function. -/
theorem c4_witness :
    stateRoot digest32 256 [] ≠ [] ∧
    ((newCometApp
        (okState
          (commit (finalizeBlock digest32 (newCometApp emptyDb)
              { height := 256, txs := [] }).1)
          (finalizeBlock digest32 (newCometApp emptyDb)
              { height := 256, txs := [] }).1).db).lastHeight = 0 ∧
      (0 : Int) ≠ 256) :=
  ⟨by decide, c4_handshake_wrong_after_height_256 digest32 (by decide)⟩

/-- Claim C5, code-bug evaluation: on a fresh application (committed height
0, empty durable store), running `FinalizeBlock` for height 1 and then
`Info` — with NO intervening `Commit` — makes `Info` report height 1 and
the freshly computed AppHash, even though the durable store still contains
nothing; the claim requires `Info` to keep reporting the last durably
committed pair (0, empty). -/
theorem c5_info_reports_uncommitted_state (hash : Bytes → Bytes) :
    (info (finalizeBlock hash (newCometApp emptyDb)
        { height := 1, txs := [] }).1).lastBlockHeight = 1 ∧
    (info (finalizeBlock hash (newCometApp emptyDb)
        { height := 1, txs := [] }).1).lastBlockAppHash = stateRoot hash 1 [] ∧
    (finalizeBlock hash (newCometApp emptyDb)
        { height := 1, txs := [] }).1.db "lastHeight" = none ∧
    (1 : Int) ≠ 0 :=
  ⟨rfl, rfl, rfl, by decide⟩

/-- Claim C6: `FinalizeBlock` returns exactly one `ExecTxResult` per input
transaction — the result list is the input list mapped position-by-position
to a (zero-valued) result, so it has the same length and order as the
submitted transactions. -/
theorem c6_one_result_per_tx (hash : Bytes → Bytes) (s : CometApp)
    (req : FinalizeBlockRequest) :
    (finalizeBlock hash s req).2.txResults =
      req.txs.map (fun _ =>
        ({ code := 0, data := [], log := "", info := ""
           gasWanted := 0, gasUsed := 0 } : ExecTxResult)) ∧
    (finalizeBlock hash s req).2.txResults.length = req.txs.length :=
  ⟨rfl, by simp [finalizeBlock]⟩

/-- Claim C7: for any candidate list and non-negative byte budget,
`PrepareProposal` returns an order-preserving initial segment (the output
equals the corresponding `take` of the input) whose total serialized size
does not exceed the budget; and on candidates of sizes
[300, 300, 300] with budget 500 it returns only the first transaction. -/
theorem c7_propose_ordered_within_budget (req : PrepareProposalRequest)
    (h : 0 ≤ req.maxTxBytes) :
    (prepareProposal req).txs
      = List.take (prepareProposal req).txs.length req.txs ∧
    totalTxBytes (prepareProposal req).txs ≤ req.maxTxBytes ∧
    (prepareProposal scenario300).txs = [List.replicate 300 0] := by
  refine ⟨prepareLoop_take _ _ _, ?_, by decide⟩
  have hsz := prepareLoop_size req.maxTxBytes req.txs 0 h
  simpa [prepareProposal] using hsz

/-- Witness for claim C7 at the spec scenario: budget 500, candidates of
sizes [300, 300, 300]. -/
theorem c7_witness :
    0 ≤ scenario300.maxTxBytes ∧
    ((prepareProposal scenario300).txs
        = List.take (prepareProposal scenario300).txs.length scenario300.txs ∧
      totalTxBytes (prepareProposal scenario300).txs ≤ scenario300.maxTxBytes ∧
      (prepareProposal scenario300).txs = [List.replicate 300 0]) :=
  ⟨by decide, c7_propose_ordered_within_budget scenario300 (by decide)⟩

/-- Claim C8: the AppHash computed inside `FinalizeBlock` is deterministic —
it is a pure function of the request's (height, ordered transaction list)
through `stateRoot`, so two invocations on the same request, from any two
application states, produce the same digest; no hidden state, iteration
order, randomness, or clock enters the computation. -/
theorem c8_apphash_deterministic (hash : Bytes → Bytes) (s1 s2 : CometApp)
    (req : FinalizeBlockRequest) :
    (finalizeBlock hash s1 req).2.appHash
      = (finalizeBlock hash s2 req).2.appHash ∧
    (finalizeBlock hash s1 req).2.appHash
      = stateRoot hash req.height req.txs :=
  ⟨rfl, rfl⟩

/-- Claim C9: `CheckTx` accepts every transaction — for every request it
returns the zero response (code 0, accept) and never an error, because the
`app.ProcessTX` hook is an always-succeeding placeholder. -/
theorem c9_checktx_always_accepts (req : CheckTxRequest) :
    checkTx req = Except.ok { code := 0 } :=
  rfl

/-- Claim C10: across every sequence of handler invocations, the only keys
ever written to the durable store are the reserved keys `lastHeight` and
`lastAppHash`: every other entry of the store is unchanged by every run. -/
theorem c10_only_reserved_keys_written (hash : Bytes → Bytes) (s : CometApp)
    (hs : List Handler) (k : String)
    (hk1 : k ≠ "lastHeight") (hk2 : k ≠ "lastAppHash") :
    (runHandlers hash s hs).db k = s.db k := by
  induction hs generalizing s with
  | nil => rfl
  | cons hd tl ih =>
    have h1 : runHandlers hash s (hd :: tl)
        = runHandlers hash (step hash s hd) tl := rfl
    rw [h1, ih (step hash s hd), step_db_frame hash s hd k hk1 hk2]

/-- Witness for claim C10: a run that executes and commits height 1 (the
commit really flushing both reserved-key writes, the digest being non-nil)
leaves the non-reserved key `"key1"` untouched. -/
theorem c10_witness :
    ("key1" ≠ "lastHeight" ∧ "key1" ≠ "lastAppHash") ∧
    (runHandlers digest32 (newCometApp emptyDb)
        [Handler.hFinalizeBlock { height := 1, txs := [[7]] },
         Handler.hCommit]).db "key1" = (newCometApp emptyDb).db "key1" :=
  ⟨⟨by decide, by decide⟩,
   c10_only_reserved_keys_written _ _ _ _ (by decide) (by decide)⟩

end CometBaseApp
